import Mathlib

/-!
Shallow embedding of the IRMS requirements-extraction core (`src/app.py`).

Python strings are modelled as Lean `String` (a structure over `List Char`),
and the specific regular expressions used by the code are modelled by
dedicated matchers that follow Python `re` semantics (leftmost search,
greedy `\s+`/`.+`, lazy `.+?`, `.` excluding newline, `$` at end of string
or before a trailing newline, case-insensitive matching where the code
passes `re.IGNORECASE`, non-overlapping `finditer` restarting at the end of
each match).  The optional spaCy model (`nlp`) is modelled by
`Option NlpModel`: `none` is the unavailable/except-swallowed case, and a
`some` value supplies sentence segmentation, token analysis and person
entities.
-/

namespace IRMS

/-! ### Python character classes and string helpers (ASCII semantics) -/

/-- Python `\s` (ASCII whitespace). -/
def pyIsSpace (c : Char) : Bool :=
  c = ' ' || c = '\t' || c = '\n' || c = '\r' || c = '\x0b' || c = '\x0c'

/-- Python `\w` (ASCII word characters). -/
def pyIsWord (c : Char) : Bool := c.isAlphanum || c = '_'

/-- Python `str.lower` on a character list. -/
def pyLower (cs : List Char) : List Char := cs.map Char.toLower

/-- Python `str.lower` on a string. -/
def pyLowerStr (s : String) : String := String.mk (pyLower s.toList)

/-- Python `str.strip()`: drop leading and trailing whitespace. -/
def pyStrip (cs : List Char) : List Char :=
  ((cs.dropWhile pyIsSpace).reverse.dropWhile pyIsSpace).reverse

/-- Python `str.strip()` on a string. -/
def pyStripStr (s : String) : String := String.mk (pyStrip s.toList)

/-- Does `pat` occur at the head of `cs` (case-sensitive)? -/
def listStartsWith : List Char → List Char → Bool
  | [], _ => true
  | _ :: _, [] => false
  | p :: ps, c :: cs => p = c && listStartsWith ps cs

/-- Does `pat` occur at the head of `cs`, case-insensitively? -/
def startsWithCI : List Char → List Char → Bool
  | [], _ => true
  | _ :: _, [] => false
  | p :: ps, c :: cs => p.toLower = c.toLower && startsWithCI ps cs

/-- Python's `needle in hay` substring test (case-sensitive). -/
def listContains (needle : List Char) : List Char → Bool
  | [] => needle.isEmpty
  | c :: rest => listStartsWith needle (c :: rest) || listContains needle rest

/-- Python's `needle in hay` on strings. -/
def containsSub (needle hay : String) : Bool :=
  listContains needle.toList hay.toList

/-- Helper for `pySplit`: accumulate the current word (reversed). -/
def pySplitGo (acc : List Char) : List Char → List String
  | [] => if acc.isEmpty then [] else [String.mk acc.reverse]
  | c :: rest =>
    if pyIsSpace c then
      if acc.isEmpty then pySplitGo [] rest
      else String.mk acc.reverse :: pySplitGo [] rest
    else pySplitGo (c :: acc) rest

/-- Python `str.split()` with no argument: split on whitespace runs,
dropping empty fragments. -/
def pySplit (s : String) : List String := pySplitGo [] s.toList

/-- Helper for `pyTitle`: `prevAlpha` records whether the previous character
was a (cased) letter, as in CPython's `str.title`. -/
def pyTitleGo (prevAlpha : Bool) : List Char → List Char
  | [] => []
  | c :: rest =>
    (if c.isAlpha then (if prevAlpha then c.toLower else c.toUpper) else c) ::
      pyTitleGo c.isAlpha rest

/-- Python `str.title()` (ASCII): uppercase each letter that follows a
non-letter, lowercase every other letter. -/
def pyTitle (s : String) : String := String.mk (pyTitleGo false s.toList)

/-! ### The requirement-pattern regexes

Each pattern in `RequirementsExtractor.requirement_patterns` has the form
`prefix\s+(.+?)(?:\.|$)`; the third pattern
`users? (?:should be able to|must|need to)\s+(.+?)(?:\.|$)` is represented
by its alternative prefixes in backtracking order. -/

/-- `(.+?)(?:\.|$)`: lazily capture at least one non-newline character up to
the first `.` (consumed) or the end of input (`$` also matches just before a
single trailing newline).  Returns the capture and the number of characters
consumed. -/
def lazyCapTerm : List Char → Option (List Char × Nat)
  | [] => none
  | c :: rest =>
    if c = '\n' then none
    else
      match rest with
      | '.' :: _ => some ([c], 2)
      | [] => some ([c], 1)
      | ['\n'] => some ([c], 1)
      | _ =>
        match lazyCapTerm rest with
        | some (cap, k) => some (c :: cap, k + 1)
        | none => none

/-- Backtracking over the greedy `\s+` before `(.+?)(?:\.|$)`: try the
longest whitespace run first, giving characters back to the capture when the
lazy part cannot match. -/
def tryWsCap (cs : List Char) : Nat → Option (List Char × Nat)
  | 0 => none
  | w + 1 =>
    match lazyCapTerm (cs.drop (w + 1)) with
    | some (cap, k) => some (cap, w + 1 + k)
    | none => tryWsCap cs w

/-- `\s+(.+?)(?:\.|$)` at the head of `cs`. -/
def wsThenCap (cs : List Char) : Option (List Char × Nat) :=
  tryWsCap cs (cs.takeWhile pyIsSpace).length

/-- Try the prefix alternatives of one requirement pattern at the current
position; on success return the captured group and total consumed length. -/
def patMatchAt : List String → List Char → Option (List Char × Nat)
  | [], _ => none
  | p :: rest, cs =>
    if startsWithCI p.toList cs then
      match wsThenCap (cs.drop p.length) with
      | some (cap, k) => some (cap, p.length + k)
      | none => patMatchAt rest cs
    else patMatchAt rest cs

/-- `re.finditer` for one requirement pattern: scan left to right, restart
after each (non-empty) match; collects the captured groups.  `fuel` bounds
the recursion and is instantiated with the input length. -/
def finditerReq (alts : List String) : Nat → List Char → List (List Char)
  | 0, _ => []
  | fuel + 1, cs =>
    match cs with
    | [] => []
    | _ :: tail =>
      match patMatchAt alts cs with
      | some (cap, k) => cap :: finditerReq alts fuel (cs.drop k)
      | none => finditerReq alts fuel tail

/-- `RequirementsExtractor.requirement_patterns`, each as its list of
prefix alternatives (in regex backtracking order). -/
def requirement_patterns : List (List String) :=
  [ ["we need to"],
    ["the system should"],
    ["users should be able to", "users must", "users need to",
     "user should be able to", "user must", "user need to"],
    ["requirement is to"],
    ["we want to"],
    ["it should"],
    ["must have"],
    ["looking for"] ]

/-- `self.actor_keywords`. -/
def actor_keywords : List String :=
  ["user", "customer", "admin", "manager", "employee", "system", "client", "vendor"]

/-- `self.action_verbs`. -/
def action_verbs : List String :=
  ["create", "view", "update", "delete", "manage", "access", "generate",
   "submit", "approve", "track", "monitor", "search", "filter", "export", "import"]

/-- The trimmed captured groups produced by one pattern on the lowercased
text (`match.group(1).strip()` for each match). -/
def candidatesOf (alts : List String) (text : String) : List String :=
  let low := pyLower text.toList
  (finditerReq alts low.length low).map (fun cap => String.mk (pyStrip cap))

/-- All pattern-matching candidates, in pattern order. -/
def patternCandidates (text : String) : List String :=
  (requirement_patterns.map (fun alts => candidatesOf alts text)).flatten

/-! ### The optional spaCy model -/

/-- One spaCy token as used by `generate_user_story`: its text, its
part-of-speech tag (`pos_`), and the texts of its subtree tokens. -/
structure PyToken where
  text : String
  pos : String
  subtree : List String
deriving DecidableEq

/-- The linguistic capability: sentence segmentation (`doc.sents`, already
applied to whatever text the code hands to `nlp`), token analysis for a
requirement, and PERSON entities for a text. -/
structure NlpModel where
  sents : String → List String
  tokens : String → List PyToken
  persons : String → List String

/-- The sentence candidates of the linguistic pass.  NOTE: the code
lowercases the transcript (`text = text.lower()`) before calling `nlp`, so
the sentences — and hence the appended candidates — come from the
lowercase-normalized text.  Each sentence is stripped
(`sent.text.strip()`), and kept when it contains at least one action verb
and at least one actor keyword as case-insensitive substrings. -/
def nlpSentCandidates (mdl : NlpModel) (text : String) : List String :=
  ((mdl.sents (pyLowerStr text)).map pyStripStr).filter
    (fun sent =>
      action_verbs.any (fun v => containsSub v (pyLowerStr sent)) &&
      actor_keywords.any (fun a => containsSub a (pyLowerStr sent)))

/-- `RequirementsExtractor.extract_requirements`: pattern candidates longer
than 10 characters, plus the linguistic-pass sentence candidates, with
`list(set(...))` modelled as deduplication (Python's set order is
unspecified). -/
def extract_requirements (m : Option NlpModel) (text : String) : List String :=
  let patterned := (patternCandidates text).filter (fun r => decide (10 < r.length))
  let nlped := match m with
    | none => []
    | some mdl => nlpSentCandidates mdl text
  (patterned ++ nlped).dedup

/-! ### `generate_user_story` -/

/-- Is this token's lowercased text one of the actor keywords
(`token.text.lower() in self.actor_keywords`)? -/
def isActorTok (t : PyToken) : Bool := actor_keywords.contains (pyLowerStr t.text)

/-- `" ".join([t.text for t in token.subtree])`. -/
def subtreePhrase (t : PyToken) : String := String.intercalate " " t.subtree

/-- Is this token a verb whose subtree phrase exceeds 5 characters (the
loop breaks, setting the action, exactly at the first such token)? -/
def isLongVerbTok (t : PyToken) : Bool :=
  t.pos == "VERB" && decide (5 < (subtreePhrase t).length)

/-- The actor of `generate_user_story`: the lowercased text of the first
token matching an actor keyword, defaulting to `"user"`. -/
def actorOf (m : Option NlpModel) (req : String) : String :=
  match m with
  | none => "user"
  | some mdl =>
    match (mdl.tokens req).find? isActorTok with
    | some t => pyLowerStr t.text
    | none => "user"

/-- The action of `generate_user_story`: the subtree phrase of the first
verb token whose phrase exceeds 5 characters, defaulting to the full
requirement text. -/
def actionOf (m : Option NlpModel) (req : String) : String :=
  match m with
  | none => req
  | some mdl =>
    match (mdl.tokens req).find? isLongVerbTok with
    | some t => subtreePhrase t
    | none => req

/-- `\s+(.+)` at the head of `cs` (greedy `\s+` with backtracking, then the
greedy capture `(.+)` of at least one non-newline character). -/
def greedyTryW (cs : List Char) : Nat → Option (List Char)
  | 0 => none
  | w + 1 =>
    match cs.drop (w + 1) with
    | [] => greedyTryW cs w
    | c :: rest =>
      if c = '\n' then greedyTryW cs w
      else some ((c :: rest).takeWhile (fun d => ¬ d = '\n'))

/-- `re.search(kw + "\s+(.+)", s, re.IGNORECASE)`: leftmost position where
the literal keyword (case-insensitively), whitespace, and a non-empty
capture all match; returns the raw captured group. -/
def searchKwCap (kw : List Char) : List Char → Option (List Char)
  | [] => none
  | c :: rest =>
    if startsWithCI kw (c :: rest) then
      match greedyTryW ((c :: rest).drop kw.length)
          (((c :: rest).drop kw.length).takeWhile pyIsSpace).length with
      | some cap => some cap
      | none => searchKwCap kw rest
    else searchKwCap kw rest

/-- `benefit_patterns = [r"to\s+(.+)", r"so that\s+(.+)", r"in order to\s+(.+)"]`,
represented by the literal part before `\s+(.+)`. -/
def benefit_patterns : List String := ["to", "so that", "in order to"]

/-- The benefit cascade of `generate_user_story`: first pattern that
matches the original requirement text wins; its captured group is stripped;
otherwise the default benefit. -/
def benefitGo : List String → String → String
  | [], _ => "improve the process"
  | kw :: rest, req =>
    match searchKwCap kw.toList req.toList with
    | some cap => String.mk (pyStrip cap)
    | none => benefitGo rest req

/-- The benefit used by `generate_user_story`. -/
def findBenefit (req : String) : String := benefitGo benefit_patterns req

/-- `RequirementsExtractor.generate_user_story`. -/
def generate_user_story (m : Option NlpModel) (requirement : String) : String :=
  "As a " ++ actorOf m requirement ++ ", I want to " ++ actionOf m requirement ++
    " so that I can " ++ findBenefit requirement

/-! ### `generate_acceptance_criteria` -/

/-- The lazy capture `(.+?)` followed by the literal `stop` string: the
shortest non-empty run of non-newline characters after which `stop` occurs. -/
def lazyCapUntil (stop : List Char) : List Char → Option (List Char)
  | [] => none
  | c :: rest =>
    if c = '\n' then none
    else if listStartsWith stop rest then some [c]
    else
      match lazyCapUntil stop rest with
      | some cap => some (c :: cap)
      | none => none

/-- `re.search(r"I want to (.+?) so that", user_story)` (case-sensitive):
returns the captured action, un-stripped, from the leftmost match. -/
def searchWantTo : List Char → Option (List Char)
  | [] => none
  | c :: rest =>
    if listStartsWith ("I want to ".toList) (c :: rest) then
      match lazyCapUntil (" so that".toList) ((c :: rest).drop 10) with
      | some cap => some cap
      | none => searchWantTo rest
    else searchWantTo rest

/-- Keywords of the "create" category check. -/
def create_keywords : List String := ["create", "add", "submit"]

/-- Keywords of the "update" category check. -/
def update_keywords : List String := ["update", "edit", "modify"]

/-- Keywords of the "delete" category check. -/
def delete_keywords : List String := ["delete", "remove"]

/-- `any(word in action for word in kws)` — a case-sensitive substring
check against the action text as extracted. -/
def categoryHit (kws : List String) (action : String) : Bool :=
  kws.any (fun w => containsSub w action)

/-- `RequirementsExtractor.generate_acceptance_criteria`.  The Python code
evaluates `action.split()[0]`, which raises `IndexError` when the captured
action contains no non-whitespace word; that exceptional outcome is
modelled as `Except.error`. -/
def generate_acceptance_criteria (user_story : String) : Except String (List String) :=
  match searchWantTo user_story.toList with
  | none => Except.ok []
  | some capChars =>
    let action := String.mk capChars
    match pySplit action with
    | [] => Except.error "IndexError: list index out of range"
    | w :: _ =>
      Except.ok
        (["GIVEN the " ++ w ++ " feature is available",
          "WHEN the user attempts to " ++ action,
          "THEN the system should successfully " ++ action]
          ++ (if categoryHit create_keywords action then
                ["AND all required fields must be validated",
                 "AND success message should be displayed"] else [])
          ++ (if categoryHit update_keywords action then
                ["AND changes should be saved to the database",
                 "AND audit trail should be updated"] else [])
          ++ (if categoryHit delete_keywords action then
                ["AND confirmation dialog should be shown",
                 "AND related data should be handled appropriately"] else []))

/-! ### `extract_stakeholders` -/

/-- One role pattern: either `(\w+\s+)?kw` or a literal keyword. -/
inductive RolePat where
  | optPrefix (kw : String)
  | lit (kw : String)
deriving DecidableEq

/-- The `role_patterns` list of `extract_stakeholders`. -/
def role_patterns : List RolePat :=
  [RolePat.optPrefix "manager", RolePat.optPrefix "director",
   RolePat.optPrefix "lead", RolePat.optPrefix "team",
   RolePat.lit "product owner", RolePat.lit "business analyst",
   RolePat.lit "developer", RolePat.lit "tester"]

/-- Match one role pattern at the current position (case-insensitive),
returning the length of `group(0)`.  For `(\w+\s+)?kw` the greedy optional
group is tried first; `\w+` and `\s+` are determined runs since word and
whitespace characters are disjoint and the keyword starts with a letter. -/
def rolePatAt : RolePat → List Char → Option Nat
  | RolePat.lit kw, cs => if startsWithCI kw.toList cs then some kw.length else none
  | RolePat.optPrefix kw, cs =>
    let wLen := (cs.takeWhile pyIsWord).length
    let afterW := cs.drop wLen
    let sLen := (afterW.takeWhile pyIsSpace).length
    if 0 < wLen && 0 < sLen && startsWithCI kw.toList (afterW.drop sLen) then
      some (wLen + sLen + kw.length)
    else if startsWithCI kw.toList cs then some kw.length
    else none

/-- `re.finditer` for one role pattern, collecting the matched substrings
(`group(0)`). -/
def finditerRole (p : RolePat) : Nat → List Char → List (List Char)
  | 0, _ => []
  | fuel + 1, cs =>
    match cs with
    | [] => []
    | _ :: tail =>
      match rolePatAt p cs with
      | some k => cs.take k :: finditerRole p fuel (cs.drop k)
      | none => finditerRole p fuel tail

/-- All role-pattern matches of a text, in pattern order. -/
def roleMatches (text : String) : List (List Char) :=
  (role_patterns.map (fun p => finditerRole p text.toList.length text.toList)).flatten

/-- `match.group(0).strip().title()`. -/
def roleLabel (mt : List Char) : String := String.mk (pyTitleGo false (pyStrip mt))

/-- The PERSON entities contributed by spaCy, empty when the model is
unavailable (or its pass raised and was swallowed). -/
def entsOf (m : Option NlpModel) (text : String) : List String :=
  match m with
  | none => []
  | some mdl => mdl.persons text

/-- `extract_stakeholders`: person entities plus trimmed, title-cased role
matches, as a deduplicated set. -/
def extract_stakeholders (m : Option NlpModel) (text : String) : List String :=
  (entsOf m text ++ (roleMatches text).map roleLabel).dedup

/-! ### `update_requirement` and the change log -/

/-- A stored requirement record (`result` dict in `analyze_transcript`). -/
structure Requirement where
  id : String
  original_requirement : String
  user_story : String
  acceptance_criteria : List String
  created_date : String
  status : String
  priority : String
deriving DecidableEq

/-- One `{field, old_value, new_value}` entry of a change. -/
structure FieldChange where
  field : String
  old_value : String
  new_value : String
deriving DecidableEq

/-- One entry of `changes_log`. -/
structure ChangeRecord where
  requirement_id : String
  timestamp : String
  changes : List FieldChange
deriving DecidableEq

/-- The tracked fields present in an update request (absent keys are
`none`). -/
structure UpdateData where
  user_story : Option String
  status : Option String
  priority : Option String
deriving DecidableEq

/-- One iteration of the tracked-field loop: `if field in data and
data[field] != req[field]`, returning the new field value and the change
entries (empty or singleton) it contributes. -/
def applyField (name : String) (given : Option String) (cur : String) :
    String × List FieldChange :=
  match given with
  | none => (cur, [])
  | some v => if v = cur then (cur, []) else (v, [⟨name, cur, v⟩])

/-- `update_requirement` on a found record: the updated record, and the
ChangeRecord appended to `changes_log` when at least one tracked field
changed (`none` means nothing was appended). -/
def update_requirement (req : Requirement) (d : UpdateData) (ts : String) :
    Requirement × Option ChangeRecord :=
  let us := applyField "user_story" d.user_story req.user_story
  let st := applyField "status" d.status req.status
  let pr := applyField "priority" d.priority req.priority
  let changes := us.2 ++ st.2 ++ pr.2
  ({ req with user_story := us.1, status := st.1, priority := pr.1 },
   if changes.isEmpty then none else some ⟨req.id, ts, changes⟩)

/-! ### `analyze_transcript` -/

/-- `f"REQ-{n:03d}"` for the identifiers of `analyze_transcript`. -/
def pad3 (n : Nat) : String :=
  if n < 10 then "00" ++ toString n
  else if n < 100 then "0" ++ toString n
  else toString n

/-- Build the records for `enumerate(requirements[:5], 1)`: story and
criteria per requirement; a criteria-generation exception propagates. -/
def mkRecords (m : Option NlpModel) (dbLen : Nat) (now : String) :
    List String → Nat → Except String (List Requirement)
  | [], _ => Except.ok []
  | r :: rs, i =>
    match generate_acceptance_criteria (generate_user_story m r) with
    | Except.error e => Except.error e
    | Except.ok ac =>
      match mkRecords m dbLen now rs (i + 1) with
      | Except.error e => Except.error e
      | Except.ok rest =>
        Except.ok
          ({ id := "REQ-" ++ pad3 (dbLen + i), original_requirement := r,
             user_story := generate_user_story m r, acceptance_criteria := ac,
             created_date := now, status := "Draft", priority := "Medium" } :: rest)

/-- The outcome of `analyze_transcript`: the records returned, the reported
`total_found`, and the `requirements_db` after the `extend`. -/
structure AnalyzeOut where
  results : List Requirement
  total_found : Nat
  newDb : List Requirement
deriving DecidableEq

/-- The `analyze_transcript` route body: reject an empty transcript,
otherwise extract, promote at most the first 5 requirements to records,
store them, and report the full extraction count. -/
def analyze_transcript (m : Option NlpModel) (db : List Requirement)
    (transcript now : String) : Except String AnalyzeOut :=
  if transcript = "" then Except.error "No transcript provided"
  else
    let reqs := extract_requirements m transcript
    if reqs.isEmpty then Except.ok ⟨[], 0, db⟩
    else
      match mkRecords m db.length now (reqs.take 5) 1 with
      | Except.error e => Except.error e
      | Except.ok results => Except.ok ⟨results, reqs.length, db ++ results⟩

/-- A minimal linguistic model whose document is the single sentence it is
given, with no token or entity analysis; used to witness the linguistic
pass concretely. -/
def singleSentenceModel : NlpModel :=
  ⟨fun s => [s], fun _ => [], fun _ => []⟩

/-- The two-requirement example transcript from the specification. -/
def demoTranscript : String :=
  "We need to let users reset their password. The system should notify the admin team."

/-- A transcript whose pattern pass yields six distinct candidates. -/
def demo6 : String :=
  "we need to alpha alpha alpha. the system should beta beta beta. we want to gamma gamma gamma. it should delta delta delta. must have epsilon features. looking for zeta zeta zeta."

/-- A concrete stored requirement record used in witnesses. -/
def demoRecord : Requirement :=
  ⟨"REQ-001", "orig req", "story text", [], "2026-01-01", "Draft", "Medium"⟩

/-- The Project Manager sentence from the specification. -/
def mgrSentence : String := "Project Manager Jane Smith will review this."

/-! ## Theorems about the claims -/

/-- Helper: one step of the benefit-pattern cascade. -/
theorem benefitGo_cons (kw : String) (rest : List String) (req : String) :
    benefitGo (kw :: rest) req =
      match searchKwCap kw.toList req.toList with
      | some cap => String.mk (pyStrip cap)
      | none => benefitGo rest req := rfl

/-- Claim C1 (counterexample): both halves of the claim fail on the code.
First, the trimmed captured candidate "abcdefghij" of the "we need to"
pattern has exactly 10 characters — it is not shorter than 10 — yet it is
discarded, because the code keeps a candidate only when its length strictly
exceeds 10.  Second, with the linguistic pass available, the 9-character
sentence "user view" (containing the action verb "view" and the actor
"user") is appended with no length filter at all, so a string shorter than
10 characters does appear in the result of extract. -/
theorem short_string_filter_counterexample :
    ("abcdefghij" ∈ patternCandidates "we need to abcdefghij." ∧
      ("abcdefghij" : String).length = 10 ∧
      "abcdefghij" ∉ extract_requirements none "we need to abcdefghij.") ∧
    ("user view" ∈ extract_requirements (some singleSentenceModel) "user view" ∧
      ("user view" : String).length = 9) := by
  decide

/-- Claim C1 (amended): for every model availability, a string is in the
result of extract_requirements exactly when it is a pattern-matched trimmed
captured candidate whose length strictly exceeds 10 characters, or a
linguistic-pass sentence candidate (which the code appends with no length
filter).  Hence a pattern candidate of 10 or fewer characters — including
the boundary length of exactly 10 — is discarded, every string that enters
through the pattern pass exceeds 10 characters, and strings shorter than 10
characters can appear only through the linguistic pass. -/
theorem extract_keeps_only_long_candidates (m : Option NlpModel) (text r : String) :
    r ∈ extract_requirements m text ↔
      (r ∈ patternCandidates text ∧ 10 < r.length) ∨
      (∃ mdl, m = some mdl ∧ r ∈ nlpSentCandidates mdl text) := by
  cases m with
  | none => simp [extract_requirements, List.mem_dedup, List.mem_filter]
  | some mdl => simp [extract_requirements, List.mem_dedup, List.mem_filter]

/-- Claim C2: generate_user_story always has the shape
"As a X, I want to Y so that I can Z", and when no actor token, no long
verb phrase and no benefit-pattern match is found (in particular when the
linguistic model is unavailable) the story is built from the defaults
actor = "user", action = the full requirement, benefit =
"improve the process". -/
theorem story_shape_and_defaults (m : Option NlpModel) (req : String)
    (hreq : req ≠ "") :
    (∃ a b c, generate_user_story m req =
        "As a " ++ a ++ ", I want to " ++ b ++ " so that I can " ++ c) ∧
    ((benefit_patterns.all
        (fun kw => (searchKwCap kw.toList req.toList).isNone)) = true →
      (m = none →
        generate_user_story m req =
          "As a user, I want to " ++ req ++ " so that I can improve the process") ∧
      (∀ mdl, m = some mdl →
        (mdl.tokens req).find? isActorTok = none →
        (mdl.tokens req).find? isLongVerbTok = none →
        generate_user_story m req =
          "As a user, I want to " ++ req ++ " so that I can improve the process")) := by
  constructor
  · exact ⟨actorOf m req, actionOf m req, findBenefit req, rfl⟩
  · intro hB
    simp only [benefit_patterns, List.all_cons, List.all_nil, Bool.and_eq_true,
      Option.isNone_iff_eq_none, Bool.and_true] at hB
    have hb : findBenefit req = "improve the process" := by
      simp only [findBenefit, benefit_patterns, benefitGo_cons, benefitGo,
        hB.1, hB.2.1, hB.2.2]
    have hfinish : ∀ a b : String, a = "user" → b = req →
        "As a " ++ a ++ ", I want to " ++ b ++ " so that I can " ++
          "improve the process" =
        "As a user, I want to " ++ req ++ " so that I can improve the process" := by
      intro a b ha hbq
      rw [ha, hbq, String.append_assoc ("As a " ++ "user" ++ ", I want to " ++ req)
        " so that I can " "improve the process"]
      rfl
    constructor
    · intro hm; subst hm
      rw [generate_user_story, hb]
      exact hfinish _ _ rfl rfl
    · intro mdl hm ha hv; subst hm
      rw [generate_user_story, hb]
      exact hfinish _ _ (by simp [actorOf, ha]) (by simp [actionOf, hv])

/-- Claim C2 (witness): with no linguistic model and the requirement
"handle invoices quickly" (which matches no benefit pattern), the story is
exactly the default composition. -/
theorem story_shape_and_defaults_witness :
    (∃ a b c, generate_user_story none "handle invoices quickly" =
        "As a " ++ a ++ ", I want to " ++ b ++ " so that I can " ++ c) ∧
    generate_user_story none "handle invoices quickly" =
      "As a user, I want to handle invoices quickly so that I can improve the process" := by
  have h := story_shape_and_defaults none "handle invoices quickly" (by decide)
  exact ⟨h.1, (h.2 (by decide)).1 rfl⟩

/-- Claim C3: the story "I want to   so that x" does match the criteria
regex with a whitespace-only captured action, and on it the code's
action.split()[0] raises IndexError instead of returning a criteria list —
the code violates the never-raises claim. -/
theorem criteria_crash_on_blank_action :
    searchWantTo ("I want to   so that x".toList) = some [' '] ∧
    generate_acceptance_criteria "I want to   so that x" =
      Except.error "IndexError: list index out of range" :=
  ⟨rfl, rfl⟩

/-- Claim C4 (counterexample): with a linguistic model available, the
transcript "The Admin can export reports" yields the lowercased sentence as
the candidate; the raw original-case sentence is not in the result, because
the code lowercases the transcript before the linguistic pass. -/
theorem nlp_candidate_not_raw_sentence :
    "The Admin can export reports" ∉
      extract_requirements (some singleSentenceModel) "The Admin can export reports" ∧
    "the admin can export reports" ∈
      extract_requirements (some singleSentenceModel) "The Admin can export reports" := by
  decide

/-- Claim C4 (amended): every candidate of extract_requirements with a
linguistic model is either a long pattern candidate or a stripped sentence
segmented from the lowercase-normalized transcript that passes the verb and
actor checks (nlpSentCandidates applies the model to the lowercased
text). -/
theorem nlp_candidates_from_lowered_text (mdl : NlpModel) (text c : String)
    (h : c ∈ extract_requirements (some mdl) text) :
    (c ∈ patternCandidates text ∧ 10 < c.length) ∨
      c ∈ nlpSentCandidates mdl text := by
  simp only [extract_requirements, List.mem_dedup, List.mem_append,
    List.mem_filter, decide_eq_true_eq] at h
  exact h

/-- Claim C4 (witness for the amended statement): the concrete lowercased
candidate of the counterexample transcript comes from the linguistic
pass on the lowercased text. -/
theorem nlp_candidates_from_lowered_text_witness :
    ("the admin can export reports" ∈ patternCandidates "The Admin can export reports" ∧
      10 < ("the admin can export reports" : String).length) ∨
    "the admin can export reports" ∈
      nlpSentCandidates singleSentenceModel "The Admin can export reports" :=
  nlp_candidates_from_lowered_text singleSentenceModel "The Admin can export reports"
    "the admin can export reports" (by decide)

/-- Claim C5: whenever the criteria regex captures an action containing at
least one word, the criteria are the three baseline statements followed by
the create-category block, then the update-category block, then the
delete-category block, each included exactly when its case-sensitive
keyword substring check hits the action text; matching several categories
appends all the matching blocks. -/
theorem criteria_category_blocks (story : String) (cap : List Char)
    (hcap : searchWantTo story.toList = some cap)
    (w : String) (ws : List String)
    (hsplit : pySplit (String.mk cap) = w :: ws) :
    generate_acceptance_criteria story = Except.ok
      (["GIVEN the " ++ w ++ " feature is available",
        "WHEN the user attempts to " ++ String.mk cap,
        "THEN the system should successfully " ++ String.mk cap]
        ++ (if categoryHit create_keywords (String.mk cap) then
              ["AND all required fields must be validated",
               "AND success message should be displayed"] else [])
        ++ (if categoryHit update_keywords (String.mk cap) then
              ["AND changes should be saved to the database",
               "AND audit trail should be updated"] else [])
        ++ (if categoryHit delete_keywords (String.mk cap) then
              ["AND confirmation dialog should be shown",
               "AND related data should be handled appropriately"] else [])) := by
  unfold generate_acceptance_criteria
  rw [hcap]
  simp only [hsplit]

/-- Claim C5 (witness): an action containing both "create" and "remove"
receives the baseline statements plus both the create block and the delete
block. -/
theorem criteria_category_blocks_witness :
    generate_acceptance_criteria
        "As a user, I want to create and remove widgets so that I can manage data" =
      Except.ok
        ["GIVEN the create feature is available",
         "WHEN the user attempts to create and remove widgets",
         "THEN the system should successfully create and remove widgets",
         "AND all required fields must be validated",
         "AND success message should be displayed",
         "AND confirmation dialog should be shown",
         "AND related data should be handled appropriately"] := by
  have h := criteria_category_blocks
    "As a user, I want to create and remove widgets so that I can manage data"
    ("create and remove widgets".toList) (by decide)
    "create" ["and", "remove", "widgets"] (by decide)
  exact h

/-- Helper: the change entries of one tracked field are empty exactly when
the field was absent from the update or set to its current value. -/
theorem applyField_snd_eq_nil_iff (name : String) (g : Option String) (cur : String) :
    (applyField name g cur).2 = [] ↔ ∀ v, g = some v → v = cur := by
  cases g with
  | none => simp [applyField]
  | some v =>
    by_cases h : v = cur <;> simp [applyField, h]

/-- Claim C6: a ChangeRecord is produced if and only if some tracked field
is set to a value different from its current one; updating status to its
current value produces none, and updating it to a new value produces
exactly one ChangeRecord whose change list is the single status entry. -/
theorem update_change_record_iff (req : Requirement) (d : UpdateData) (ts : String) :
    (((update_requirement req d ts).2).isSome ↔
      (∃ v, d.user_story = some v ∧ v ≠ req.user_story) ∨
      (∃ v, d.status = some v ∧ v ≠ req.status) ∨
      (∃ v, d.priority = some v ∧ v ≠ req.priority)) ∧
    (update_requirement req ⟨none, some req.status, none⟩ ts).2 = none ∧
    (∀ v, v ≠ req.status →
      (update_requirement req ⟨none, some v, none⟩ ts).2 =
        some ⟨req.id, ts, [⟨"status", req.status, v⟩]⟩) := by
  refine ⟨?_, ?_, ?_⟩
  · rcases d with ⟨ous, ost, opr⟩
    rcases ous with _ | us <;> rcases ost with _ | st <;> rcases opr with _ | pr <;>
      simp only [update_requirement, applyField] <;>
      split_ifs <;> simp_all
  · simp [update_requirement, applyField]
  · intro v hv
    simp [update_requirement, applyField, hv]

/-- Claim C6 (witness): updating the demo record's status from "Draft" to
"Approved" yields exactly one ChangeRecord with the single status entry. -/
theorem update_change_record_iff_witness :
    (update_requirement demoRecord ⟨none, some "Approved", none⟩ "T").2 =
      some ⟨"REQ-001", "T", [⟨"status", "Draft", "Approved"⟩]⟩ :=
  (update_change_record_iff demoRecord ⟨none, some "Approved", none⟩ "T").2.2
    "Approved" (by decide)

/-- Claim C7: the composed story always ends with the benefit computed
from the original requirement text, and that benefit is determined by the
first of the patterns "to", "so that", "in order to" (in that order) that
matches, taking the trimmed captured group, with the default kept when
none matches. -/
theorem benefit_first_pattern_wins (m : Option NlpModel) (req : String) :
    (∃ pre, generate_user_story m req =
        pre ++ " so that I can " ++ findBenefit req) ∧
    (∀ cap, searchKwCap "to".toList req.toList = some cap →
      findBenefit req = String.mk (pyStrip cap)) ∧
    (searchKwCap "to".toList req.toList = none →
      ∀ cap, searchKwCap "so that".toList req.toList = some cap →
        findBenefit req = String.mk (pyStrip cap)) ∧
    (searchKwCap "to".toList req.toList = none →
      searchKwCap "so that".toList req.toList = none →
      ∀ cap, searchKwCap "in order to".toList req.toList = some cap →
        findBenefit req = String.mk (pyStrip cap)) ∧
    (searchKwCap "to".toList req.toList = none →
      searchKwCap "so that".toList req.toList = none →
      searchKwCap "in order to".toList req.toList = none →
      findBenefit req = "improve the process") := by
  refine ⟨⟨"As a " ++ actorOf m req ++ ", I want to " ++ actionOf m req, rfl⟩,
    ?_, ?_, ?_, ?_⟩
  · intro cap h1
    simp only [findBenefit, benefit_patterns, benefitGo_cons, h1]
  · intro h1 cap h2
    simp only [findBenefit, benefit_patterns, benefitGo_cons, h1, h2]
  · intro h1 h2 cap h3
    simp only [findBenefit, benefit_patterns, benefitGo_cons, h1, h2, h3]
  · intro h1 h2 h3
    simp only [findBenefit, benefit_patterns, benefitGo_cons, benefitGo, h1, h2, h3]

/-- Claim C7 (witness): on "work so that errors drop" the "to" pattern
does not match and the "so that" pattern wins, giving benefit
"errors drop". -/
theorem benefit_first_pattern_wins_witness :
    findBenefit "work so that errors drop" = "errors drop" :=
  (benefit_first_pattern_wins none "work so that errors drop").2.2.1 (by decide)
    ("errors drop".toList) (by decide)

/-- Helper: string append maps to list append on the character lists. -/
theorem toList_append (a b : String) : (a ++ b).toList = a.toList ++ b.toList := rfl

/-- Helper: a case-insensitive prefix of a list is a prefix of any
extension of that list. -/
theorem startsWithCI_append_left (p xs ys : List Char)
    (h : startsWithCI p xs = true) : startsWithCI p (xs ++ ys) = true := by
  induction p generalizing xs with
  | nil => rfl
  | cons a ps ih =>
    cases xs with
    | nil => simp [startsWithCI] at h
    | cons c cs =>
      simp only [List.cons_append, startsWithCI, Bool.and_eq_true] at h ⊢
      exact ⟨h.1, ih cs h.2⟩

/-- Helper: a case-insensitive occurrence in a list is still an occurrence
after prepending any list. -/
theorem occ_shift_left (p xs : List Char)
    (h : ∃ i, startsWithCI p (xs.drop i) = true) :
    ∀ pre : List Char, ∃ i, startsWithCI p ((pre ++ xs).drop i) = true := by
  intro pre
  induction pre with
  | nil => simpa using h
  | cons a pre ih =>
    obtain ⟨j, hj⟩ := ih
    exact ⟨j + 1, by simpa [List.cons_append, List.drop_succ_cons] using hj⟩

/-- Helper: when the optional-prefix role pattern has no match at a
position, the keyword itself does not occur there. -/
theorem rolePatAt_none_not_kw (kw : String) (cs : List Char)
    (h : rolePatAt (RolePat.optPrefix kw) cs = none) :
    startsWithCI kw.toList cs = false := by
  simp only [rolePatAt] at h
  split_ifs at h with h1 h2
  all_goals simp_all

/-- Helper: one finditer step when the pattern matches at the head. -/
theorem finditerRole_cons_some (p : RolePat) (fuel : Nat) (c : Char)
    (tail : List Char) (k : Nat) (h : rolePatAt p (c :: tail) = some k) :
    finditerRole p (fuel + 1) (c :: tail) =
      (c :: tail).take k :: finditerRole p fuel ((c :: tail).drop k) := by
  simp [finditerRole, h]

/-- Helper: one finditer step when the pattern does not match at the head. -/
theorem finditerRole_cons_none (p : RolePat) (fuel : Nat) (c : Char)
    (tail : List Char) (h : rolePatAt p (c :: tail) = none) :
    finditerRole p (fuel + 1) (c :: tail) = finditerRole p fuel tail := by
  simp [finditerRole, h]

/-- Helper: a text with a case-insensitive occurrence of the keyword has at
least one match of the optional-prefix role pattern. -/
theorem finditerRole_ne_nil (kw : String) (hkw : kw.toList ≠ []) :
    ∀ (fuel : Nat) (cs : List Char), cs.length ≤ fuel →
      (∃ i, startsWithCI kw.toList (cs.drop i) = true) →
      finditerRole (RolePat.optPrefix kw) fuel cs ≠ [] := by
  intro fuel
  induction fuel with
  | zero =>
    intro cs hlen hocc
    obtain ⟨i, hi⟩ := hocc
    obtain rfl : cs = [] := List.length_eq_zero.mp (Nat.le_zero.mp hlen)
    rw [List.drop_nil] at hi
    cases hk : kw.toList with
    | nil => exact absurd hk hkw
    | cons a as => rw [hk] at hi; simp [startsWithCI] at hi
  | succ fuel ih =>
    intro cs hlen hocc
    obtain ⟨i, hi⟩ := hocc
    cases cs with
    | nil =>
      rw [List.drop_nil] at hi
      cases hk : kw.toList with
      | nil => exact absurd hk hkw
      | cons a as => rw [hk] at hi; simp [startsWithCI] at hi
    | cons c tail =>
      cases hm : rolePatAt (RolePat.optPrefix kw) (c :: tail) with
      | some k =>
        rw [finditerRole_cons_some _ _ _ _ _ hm]
        exact List.cons_ne_nil _ _
      | none =>
        have hns := rolePatAt_none_not_kw kw (c :: tail) hm
        cases i with
        | zero =>
          rw [List.drop_zero] at hi
          rw [hi] at hns
          exact Bool.noConfusion hns
        | succ j =>
          rw [finditerRole_cons_none _ _ _ _ hm]
          exact ih tail (Nat.succ_le_succ_iff.mp hlen)
            ⟨j, by simpa [List.drop_succ_cons] using hi⟩

/-- Claim C8: every stakeholder label is a person entity or a role-pattern
match trimmed and title-cased; the result is deduplicated by exact string
equality; for ANY text containing the Project Manager sentence — whatever
surrounds it, and regardless of entity-recognition availability — some
manager-pattern match exists and its trimmed, title-cased label is in the
result; and on a concrete containing text that label is literally
"Project Manager". -/
theorem stakeholder_labels :
    (∀ (m : Option NlpModel) (text l : String),
      l ∈ extract_stakeholders m text →
      l ∈ entsOf m text ∨ ∃ mt, mt ∈ roleMatches text ∧ l = roleLabel mt) ∧
    (∀ (m : Option NlpModel) (text : String), (extract_stakeholders m text).Nodup) ∧
    (∀ (m : Option NlpModel) (pre suf : String),
      ∃ mt, mt ∈ finditerRole (RolePat.optPrefix "manager")
          ((pre ++ mgrSentence ++ suf).toList.length)
          ((pre ++ mgrSentence ++ suf).toList) ∧
        roleLabel mt ∈ extract_stakeholders m (pre ++ mgrSentence ++ suf)) ∧
    "Project Manager" ∈
      extract_stakeholders none ("Note: " ++ mgrSentence ++ " Thanks.") := by
  refine ⟨?_, ?_, ?_, by decide⟩
  · intro m text l h
    simp only [extract_stakeholders, List.mem_dedup, List.mem_append,
      List.mem_map] at h
    rcases h with h | ⟨mt, hmt, rfl⟩
    · exact Or.inl h
    · exact Or.inr ⟨mt, hmt, rfl⟩
  · intro m text
    exact List.nodup_dedup _
  · intro m pre suf
    have htext : (pre ++ mgrSentence ++ suf).toList =
        pre.toList ++ (mgrSentence.toList ++ suf.toList) := by
      rw [toList_append, toList_append, List.append_assoc]
    have hstart : startsWithCI "manager".toList
        ((mgrSentence.toList.drop 8) ++ suf.toList) = true :=
      startsWithCI_append_left _ _ _ (by decide)
    have hocc : ∃ i, startsWithCI "manager".toList
        ((pre ++ mgrSentence ++ suf).toList.drop i) = true := by
      rw [htext]
      exact occ_shift_left _ _ ⟨8, hstart⟩ pre.toList
    have hne := finditerRole_ne_nil "manager" (by decide)
      ((pre ++ mgrSentence ++ suf).toList.length)
      ((pre ++ mgrSentence ++ suf).toList) (Nat.le_refl _) hocc
    obtain ⟨mt, hmt⟩ := List.exists_mem_of_ne_nil _ hne
    refine ⟨mt, hmt, ?_⟩
    have hrm : mt ∈ roleMatches (pre ++ mgrSentence ++ suf) := by
      refine List.mem_flatten.mpr
        ⟨finditerRole (RolePat.optPrefix "manager")
            ((pre ++ mgrSentence ++ suf).toList.length)
            ((pre ++ mgrSentence ++ suf).toList), ?_, hmt⟩
      exact List.mem_map.mpr ⟨RolePat.optPrefix "manager", by simp [role_patterns], rfl⟩
    simp only [extract_stakeholders, List.mem_dedup, List.mem_append, List.mem_map]
    exact Or.inr ⟨mt, hrm, rfl⟩

/-- Claim C8 (witness): the label "Project Manager" of the Project Manager
transcript is a trimmed, title-cased role-pattern match. -/
theorem stakeholder_labels_witness :
    "Project Manager" ∈ entsOf none "Project Manager Jane Smith will review this." ∨
    ∃ mt, mt ∈ roleMatches "Project Manager Jane Smith will review this." ∧
      "Project Manager" = roleLabel mt :=
  stakeholder_labels.1 none "Project Manager Jane Smith will review this."
    "Project Manager" (by decide)

/-- Claim C9: on the example transcript, the "we need to" pattern yields
the candidate "let users reset their password", the "the system should"
pattern yields "notify the admin team", both are in the pattern-only
extraction result, and the result has at least two elements. -/
theorem demo_transcript_two_candidates :
    "let users reset their password" ∈ candidatesOf ["we need to"] demoTranscript ∧
    "notify the admin team" ∈ candidatesOf ["the system should"] demoTranscript ∧
    "let users reset their password" ∈ extract_requirements none demoTranscript ∧
    "notify the admin team" ∈ extract_requirements none demoTranscript ∧
    2 ≤ (extract_requirements none demoTranscript).length := by
  decide

/-- Helper: when record building succeeds it produces one record per input
requirement. -/
theorem mkRecords_length (m : Option NlpModel) (dbLen : Nat) (now : String) :
    ∀ (l : List String) (i : Nat) (res : List Requirement),
      mkRecords m dbLen now l i = Except.ok res → res.length = l.length := by
  intro l
  induction l with
  | nil =>
    intro i res h
    simp only [mkRecords] at h
    cases h
    rfl
  | cons r rs ih =>
    intro i res h
    unfold mkRecords at h
    cases hac : generate_acceptance_criteria (generate_user_story m r) with
    | error e => rw [hac] at h; cases h
    | ok ac =>
      rw [hac] at h
      cases hrec : mkRecords m dbLen now rs (i + 1) with
      | error e => rw [hrec] at h; cases h
      | ok rest =>
        rw [hrec] at h
        cases h
        simp [ih (i + 1) rest hrec]

/-- Claim C10: whenever analyze_transcript succeeds, the number of records
created (which are exactly the ones returned and appended to the store) is
the minimum of 5 and the extraction count — hence at most 5 — while
total_found reports the full extraction count. -/
theorem analyze_limit_five (m : Option NlpModel) (db : List Requirement)
    (transcript now : String) (out : AnalyzeOut)
    (h : analyze_transcript m db transcript now = Except.ok out) :
    out.results.length = min 5 (extract_requirements m transcript).length ∧
    out.results.length ≤ 5 ∧
    out.total_found = (extract_requirements m transcript).length ∧
    out.newDb = db ++ out.results := by
  unfold analyze_transcript at h
  by_cases ht : transcript = ""
  · rw [if_pos ht] at h; cases h
  · rw [if_neg ht] at h
    by_cases he : (extract_requirements m transcript).isEmpty = true
    · rw [if_pos he] at h
      cases h
      have : extract_requirements m transcript = [] := by
        simpa [List.isEmpty_iff] using he
      simp [this]
    · rw [if_neg he] at h
      cases hmk : mkRecords m db.length now
          ((extract_requirements m transcript).take 5) 1 with
      | error e => rw [hmk] at h; cases h
      | ok results =>
        rw [hmk] at h
        cases h
        have hlen := mkRecords_length m db.length now
          ((extract_requirements m transcript).take 5) 1 results hmk
        rw [List.length_take] at hlen
        exact ⟨hlen, hlen ▸ Nat.min_le_left _ _, rfl, rfl⟩

set_option maxRecDepth 100000 in
/-- Claim C10 (witness): a transcript with six extracted requirements
produces exactly five stored records while total_found reports six. -/
theorem analyze_limit_five_witness :
    ∃ out, analyze_transcript none [] demo6 "T" = Except.ok out ∧
      out.results.length = 5 ∧ out.total_found = 6 := by
  have hok : (analyze_transcript none [] demo6 "T").toOption.isSome = true := by
    decide
  cases h : analyze_transcript none [] demo6 "T" with
  | error e => rw [h] at hok; simp [Except.toOption] at hok
  | ok out =>
    have hc := analyze_limit_five none [] demo6 "T" out h
    have hlen : (extract_requirements none demo6).length = 6 := by decide
    refine ⟨out, rfl, ?_, ?_⟩
    · rw [hc.1, hlen]; decide
    · rw [hc.2.2.1, hlen]

end IRMS

